import Mathlib

/-!
Verification of the permissioned-ledger core of the herb-traceability system:
the node registry, rule-validating transaction admission (smart contract),
proof-of-work block sealing, and chain-integrity checking, shallowly embedded
from `Blockchain.js` (the `PermissionedBlockchain` class) and
`SmartContract.js` (the `AyurvedicHerbContract` class).

Modelling conventions:
* JS numbers used by the rules (GPS coordinates, quantities, thresholds) are
  embedded as `ℚ`; timestamps as `ℕ` (milliseconds).
* A JS object field that may be absent is an `Option`; `undefined === x`
  comparisons and `undefined > x` / truthiness tests are translated branch by
  branch at each use site.
* SHA-256, the placeholder signature, the contract hash, and the two calendar
  projections of `Date` (`toDateString`, `getMonth`) are ambient effects of the
  runtime; they are bundled into an `Env` parameter threaded through the
  definitions.  `Date.now()` and `uuidv4()` results are explicit arguments.
* Exceptions are `Except`; each state-changing operation returns the result
  together with the (possibly unchanged) state, mirroring the fact that in the
  source every `throw` happens before any mutation of `this`.
-/

namespace HerbLedger

/-- A GPS point, as read from `data.gps` (`latitude`/`longitude`). -/
structure GPS where
  latitude : ℚ
  longitude : ℚ
deriving DecidableEq

/-- Optional quality metrics carried on a collection payload
(`data.qualityMetrics` in `SmartContract.js`). -/
structure QualityMetrics where
  moisture : Option ℚ := none
  withanolide : Option ℚ := none
  pesticide : Option ℚ := none
  heavyMetals : Option ℚ := none
deriving DecidableEq

/-- Processing conditions object (`data.conditions`). -/
structure Conditions where
  temperature : Option ℚ := none
  meshSize : Option ℚ := none
deriving DecidableEq

/-- The free-form transaction payload (`data`), restricted to the fields the
core ever reads.  All fields are optional, as in the schemaless source. -/
structure TxData where
  farmerId : Option String := none
  species : Option String := none
  gps : Option GPS := none
  quantity : Option ℚ := none
  qualityMetrics : Option QualityMetrics := none
  batchId : Option String := none
  processingType : Option String := none
  conditions : Option Conditions := none
  labId : Option String := none
  message : Option String := none
  nodeId : Option String := none
  nodeType : Option String := none
deriving DecidableEq, Inhabited

/-- The outcome record a successful contract execution attaches to a
transaction (`valid` is always `true` when attached, so it is elided). -/
structure ContractResult where
  contractHash : String
  validationRules : List (String × String)
deriving DecidableEq

/-- A transaction (the spec calls it an Event). -/
structure Transaction where
  id : String
  type : String
  data : TxData
  nodeId : String
  timestamp : Nat
  signature : String
  contractValidation : Option ContractResult := none
deriving DecidableEq, Inhabited

/-- A registered node. -/
structure Node where
  id : String
  type : String
  publicKey : String
  metadata : List (String × String)
  registeredAt : Nat
  active : Bool
  permissions : List String
deriving DecidableEq, Inhabited

/-- A block of the chain.  `minerId` is `none` exactly for the genesis block,
which the source creates without that field. -/
structure Block where
  index : Nat
  timestamp : Nat
  transactions : List Transaction
  previousHash : String
  hash : String
  nonce : Nat
  minerId : Option String
deriving DecidableEq, Inhabited

/-- The input `calculateHash` feeds to SHA-256.  The source concatenates
`(block.index || 0) + (block.timestamp || 0)` (a JS numeric sum, hence a single
`Nat` component), `JSON.stringify(block.transactions || [])`,
`(block.previousHash || '')` and `(block.nonce || 0)`; the serialization into
the actual byte string is folded into the ambient hash function. -/
abbrev HashInput : Type := Nat × List Transaction × String × Nat

/-- The ambient runtime functions: SHA-256 as used for block hashes
(`calculateHash`), for the placeholder signature (`signTransaction`) and for
the contract hash (`generateContractHash`), plus the two calendar projections
of `Date`: `dayOf t` models `new Date(t).toDateString()` (as an abstract
day index) and `monthOf t` models `new Date(t).getMonth() + 1`. -/
structure Env where
  hashFn : HashInput → String
  signFn : String × String × TxData × Nat × String → String
  contractHashFn : String × Nat × String × String → String
  dayOf : Nat → Nat
  monthOf : Nat → Nat

/-- One permitted bounding box of the geo-fencing table. -/
structure GeoRule where
  latMin : ℚ
  latMax : ℚ
  lngMin : ℚ
  lngMax : ℚ
deriving DecidableEq

/-- The geo-fencing table of `SmartContract.js` (`this.rules.geoFencing`). -/
def geoFencing (species : String) : Option (List GeoRule) :=
  if species = "ashwagandha" then
    some [⟨24, 30, 69, 78⟩, ⟨21, 26, 74, 82⟩, ⟨20, 25, 68, 75⟩]
  else none

/-- The seasonal-restriction table (`this.rules.seasonalRestrictions`). -/
def seasonalRestrictions (species : String) : Option (List Nat) :=
  if species = "ashwagandha" then some [10, 11, 12, 1, 2]
  else if species = "tulsi" then some [3, 4, 5, 6, 7, 8]
  else if species = "neem" then some [1, 2, 3, 4, 5, 6, 7, 8, 9, 10, 11, 12]
  else none

/-- One row of the quality-threshold table. -/
structure Thresholds where
  moistureMax : ℚ
  withanolideMin : ℚ
  pesticideMax : ℚ
  heavyMetalsMax : ℚ
deriving DecidableEq

/-- The quality-threshold table (`this.rules.qualityThresholds`): only
`ashwagandha` has an entry. -/
def qualityThresholds (species : String) : Option Thresholds :=
  if species = "ashwagandha" then some ⟨12, mkRat 3 10, mkRat 1 100, 10⟩
  else none

/-- The daily collection limits in kg per farmer per day
(`this.rules.dailyLimits`). -/
def dailyLimits (species : String) : Option ℚ :=
  if species = "ashwagandha" then some 50
  else if species = "tulsi" then some 25
  else if species = "neem" then some 100
  else none

/-- `validateGeoFencing`.  An absent species indexes the table at `undefined`,
yielding no rules, so the check returns `false`; a known species with an
absent GPS object makes the source read `gps.latitude` of `undefined`, a
`TypeError`, modelled as `none`. -/
def validateGeoFencing (species : Option String) (gps : Option GPS) :
    Option Bool :=
  match species.bind geoFencing with
  | none => some false
  | some rules =>
    match gps with
    | none => none
    | some g =>
      some (rules.any fun r =>
        decide (r.latMin ≤ g.latitude) && decide (g.latitude ≤ r.latMax) &&
        decide (r.lngMin ≤ g.longitude) && decide (g.longitude ≤ r.lngMax))

/-- `validateSeason`: the month of the event timestamp must be in the allowed
list; an unknown species fails. -/
def validateSeason (env : Env) (species : Option String) (timestamp : Nat) :
    Bool :=
  match species.bind seasonalRestrictions with
  | none => false
  | some months => months.contains (env.monthOf timestamp)

/-- Rational addition written through `mkRat` so that it evaluates by kernel
reduction (`Rat.add` is irreducible); `ratAdd_eq` below shows it is ordinary
addition. -/
def ratAdd (a b : ℚ) : ℚ :=
  mkRat (a.num * b.den + b.num * a.den) (a.den * b.den)

/-- Sum of a list of optional quantities, propagating absence: in the source an
absent `tx.data.quantity` poisons the running sum with `NaN`, making the final
comparison false; `none` plays the role of `NaN`. -/
def sumQuantities (l : List (Option ℚ)) : Option ℚ :=
  l.foldl (fun acc q =>
    match acc, q with
    | some a, some b => some (ratAdd a b)
    | _, _ => none) (some 0)

/-- `validateDailyLimit`: sums today's sealed-history collections of the same
farmer and species and admits the candidate quantity iff the total stays within
the species limit.  `now` is the wall-clock time (`new Date()`); an unknown
species fails. -/
def validateDailyLimit (env : Env) (now : Nat) (farmerId : Option String)
    (species : Option String) (quantity : Option ℚ)
    (existing : List Transaction) : Bool :=
  match species.bind dailyLimits with
  | none => false
  | some limit =>
    let today := env.dayOf now
    let todays := existing.filter fun tx =>
      tx.type == "CollectionEvent" && tx.data.farmerId == farmerId &&
      tx.data.species == species && env.dayOf tx.timestamp == today
    match sumQuantities (todays.map (fun tx => tx.data.quantity)), quantity with
    | some total, some q => decide (ratAdd total q ≤ limit)
    | _, _ => false

/-- `validateQuality`: returns `none` when valid, `some reason` when invalid.
An absent metric is never checked (`undefined > x` is false in JS).  The
withanolide check is guarded by JS truthiness of the value itself, so a present
value of exactly `0` is also skipped. -/
def validateQuality (species : Option String) (qm : QualityMetrics) :
    Option String :=
  match species.bind qualityThresholds with
  | none => some "No quality rules defined for species"
  | some th =>
    if (qm.moisture.map fun m => decide (th.moistureMax < m)).getD false then
      some "Moisture content exceeds maximum allowed"
    else if (qm.withanolide.map fun w =>
        !(w == 0) && decide (w < th.withanolideMin)).getD false then
      some "Withanolide content below minimum required"
    else if (qm.pesticide.map fun p => decide (th.pesticideMax < p)).getD false then
      some "Pesticide residue exceeds maximum allowed"
    else if (qm.heavyMetals.map fun h => decide (th.heavyMetalsMax < h)).getD false then
      some "Heavy metals exceed maximum allowed"
    else none

/-- Renders an optional string the way JS template interpolation renders
`undefined`. -/
def optStr (s : Option String) : String := s.getD "undefined"

/-- `generateContractHash`: SHA-256 over (transaction id, timestamp, type,
node id), via the ambient hash. -/
def generateContractHash (env : Env) (tx : Transaction) : String :=
  env.contractHashFn (tx.id, tx.timestamp, tx.type, tx.nodeId)

/-- `executeCollectionEvent`: geo-fence, season, daily limit, then (only when
quality metrics are present) quality thresholds, failing fast with the thrown
message.  The numeric GPS interpolation of the geo message is elided (number
formatting is not modelled); the remaining message text is verbatim. -/
def executeCollectionEvent (env : Env) (now : Nat) (tx : Transaction)
    (existing : List Transaction) : Except String ContractResult :=
  let d := tx.data
  match validateGeoFencing d.species d.gps with
  | none => .error "Cannot read properties of undefined"
  | some geoOk =>
    if !geoOk then
      .error ("Collection not allowed: GPS location is outside approved zones for "
        ++ optStr d.species)
    else if !validateSeason env d.species tx.timestamp then
      .error ("Collection not allowed: " ++ optStr d.species
        ++ " cannot be collected in current season")
    else if !validateDailyLimit env now d.farmerId d.species d.quantity existing then
      .error ("Collection not allowed: Daily limit exceeded for farmer "
        ++ optStr d.farmerId)
    else
      match d.qualityMetrics with
      | some qm =>
        match validateQuality d.species qm with
        | some reason => .error ("Quality validation failed: " ++ reason)
        | none =>
          .ok ⟨generateContractHash env tx,
            [("geoFencing", "PASSED"), ("seasonalRestriction", "PASSED"),
             ("dailyLimit", "PASSED"), ("quality", "PASSED")]⟩
      | none =>
        .ok ⟨generateContractHash env tx,
          [("geoFencing", "PASSED"), ("seasonalRestriction", "PASSED"),
           ("dailyLimit", "PASSED"), ("quality", "NOT_TESTED")]⟩

/-- The batch-existence test shared by processing and quality-test contracts:
`tx.data.batchId === batchId || tx.id === batchId`.  When the candidate's
`batchId` is absent, the first disjunct holds for any recorded transaction
that also lacks a `batchId` (JS `undefined === undefined`), and the second is
false (a string is never `undefined`). -/
def batchExists (batchId : Option String) (existing : List Transaction) : Bool :=
  existing.any fun t =>
    t.data.batchId == batchId ||
      (match batchId with
       | some b => t.id == b
       | none => false)

/-- `executeProcessingStep`: the referenced batch must exist; `drying` and
`grinding` have condition checks.  Reading `conditions.temperature` (or
`.meshSize`) of an absent conditions object is the JS `TypeError`. -/
def executeProcessingStep (env : Env) (tx : Transaction)
    (existing : List Transaction) : Except String ContractResult :=
  let d := tx.data
  if !batchExists d.batchId existing then
    .error ("Processing not allowed: Batch " ++ optStr d.batchId
      ++ " not found in blockchain")
  else if d.processingType == some "drying" then
    match d.conditions with
    | none => .error "Cannot read properties of undefined"
    | some c =>
      if (c.temperature.map fun t => decide ((60 : ℚ) < t)).getD false then
        .error "Drying temperature too high - may degrade active compounds"
      else
        .ok ⟨generateContractHash env tx,
          [("batchTraceability", "PASSED"), ("processingConditions", "PASSED")]⟩
  else if d.processingType == some "grinding" then
    match d.conditions with
    | none => .error "Cannot read properties of undefined"
    | some c =>
      if (c.meshSize.map fun m => decide (m < (80 : ℚ))).getD false then
        .error "Mesh size too coarse for pharmaceutical grade requirements"
      else
        .ok ⟨generateContractHash env tx,
          [("batchTraceability", "PASSED"), ("processingConditions", "PASSED")]⟩
  else
    .ok ⟨generateContractHash env tx,
      [("batchTraceability", "PASSED"), ("processingConditions", "PASSED")]⟩

/-- The fixed certified-lab allow-list. -/
def certifiedLabs : List String := ["LAB001", "LAB002", "LAB003"]

/-- `executeQualityTest`: batch must exist and the lab must be certified. -/
def executeQualityTest (env : Env) (tx : Transaction)
    (existing : List Transaction) : Except String ContractResult :=
  let d := tx.data
  if !batchExists d.batchId existing then
    .error ("Quality test not allowed: Batch " ++ optStr d.batchId
      ++ " not found")
  else if !((d.labId.map fun l => certifiedLabs.contains l).getD false) then
    .error ("Lab " ++ optStr d.labId ++ " is not certified for testing")
  else
    .ok ⟨generateContractHash env tx,
      [("batchTraceability", "PASSED"), ("labCertification", "PASSED"),
       ("testValidity", "PASSED")]⟩

/-! ## The blockchain state and its operations (`Blockchain.js`) -/

/-- The mutable state of a `PermissionedBlockchain` instance; the node map is
an insertion-ordered association list, as a JS `Map` is. -/
structure BCState where
  chain : List Block
  pendingTransactions : List Transaction
  nodes : List (String × Node)
deriving DecidableEq

/-- `Map.get`. -/
def mapGet (m : List (String × Node)) (k : String) : Option Node :=
  (m.find? fun p => p.1 == k).map fun p => p.2

/-- `Map.set`: replaces the value in place when the key is present (keeping
insertion order), otherwise appends. -/
def mapSet (m : List (String × Node)) (k : String) (v : Node) :
    List (String × Node) :=
  if m.any (fun p => p.1 == k) then
    m.map fun p => if p.1 == k then (k, v) else p
  else m ++ [(k, v)]

/-- The process-wide proof-of-work difficulty (`this.difficulty = 2`). -/
def difficulty : Nat := 2

/-- The substring test of the mining loop and of the block invariant: the
first `d` characters of the digest are all `'0'`
(`hash.substring(0, d) === Array(d + 1).join('0')`). -/
def leadingZeros (s : String) (d : Nat) : Bool :=
  s.data.take d == List.replicate d '0'

/-- `calculateHash` on a block: the ambient hash of the concatenated fields
(index and timestamp collapse into one numeric sum in the source). -/
def calculateHash (env : Env) (b : Block) : String :=
  env.hashFn (b.index + b.timestamp, b.transactions, b.previousHash, b.nonce)

/-- The hash input of `this.calculateHash([])`, used for the genesis digest:
every field defaults (`index`, `timestamp`, `nonce` to `0`, `transactions` to
`[]`, `previousHash` to `''`). -/
def genesisHashInput : HashInput := (0, [], "", 0)

/-- `createGenesisBlock` plus the constructor: the initial state with the
genesis block; `now` is `Date.now()` and `gid` the generated uuid of the
synthetic genesis transaction. -/
def initState (env : Env) (now : Nat) (gid : String) : BCState :=
  { chain := [{
      index := 0
      timestamp := now
      transactions := [{
        id := gid
        type := "Genesis"
        data := { message := some "Ayurvedic Herb Traceability Blockchain Genesis" }
        nodeId := "SYSTEM"
        timestamp := now
        signature := "GENESIS_SIGNATURE" }]
      previousHash := "0"
      hash := env.hashFn genesisHashInput
      nonce := 0
      minerId := none }]
    pendingTransactions := []
    nodes := [] }

/-- The fixed set of admissible roles. -/
def allowedTypes : List String :=
  ["farmer", "processor", "lab", "manufacturer", "regulator"]

/-- `getNodePermissions`: the fixed role-to-capability table (unknown role:
empty list). -/
def getNodePermissions (nodeType : String) : List String :=
  if nodeType = "farmer" then ["create_collection_event", "read_own_data"]
  else if nodeType = "processor" then ["create_processing_step", "read_batch_data"]
  else if nodeType = "lab" then ["create_quality_test", "read_test_data"]
  else if nodeType = "manufacturer" then ["create_manufacturing_record", "generate_qr"]
  else if nodeType = "regulator" then
    ["read_all_data", "create_compliance_report", "flag_violations"]
  else []

/-- The failure of `registerNode`. -/
inductive RegError where
  | invalidNodeType (ty : String)
deriving DecidableEq

/-- The success value of `registerNode` (`{ success: true, nodeId,
registeredAt }`). -/
structure RegReceipt where
  nodeId : String
  registeredAt : Nat
deriving DecidableEq

/-- `registerNode`: rejects an unknown role, otherwise `Map.set`s the node —
silently overwriting any existing entry with the same id. -/
def registerNode (now : Nat) (st : BCState) (nodeId nodeType publicKey : String)
    (metadata : List (String × String)) : Except RegError RegReceipt × BCState :=
  if nodeType ∉ allowedTypes then (.error (.invalidNodeType nodeType), st)
  else
    let node : Node :=
      { id := nodeId, type := nodeType, publicKey := publicKey,
        metadata := metadata, registeredAt := now, active := true,
        permissions := getNodePermissions nodeType }
    (.ok ⟨nodeId, now⟩, { st with nodes := mapSet st.nodes nodeId node })

/-- `getRequiredPermission`: kind-to-capability table with the
`'read_own_data'` fallback for unrecognized kinds. -/
def getRequiredPermission (ty : String) : String :=
  if ty = "CollectionEvent" then "create_collection_event"
  else if ty = "ProcessingStep" then "create_processing_step"
  else if ty = "QualityTest" then "create_quality_test"
  else if ty = "ManufacturingRecord" then "create_manufacturing_record"
  else if ty = "ComplianceReport" then "create_compliance_report"
  else "read_own_data"

/-- The failure modes of `createTransaction`; the source throws a single
message for a missing or inactive node. -/
inductive SubmitError where
  | nodeNotFoundOrInactive (nodeId : String)
  | noPermission (nodeId ty : String)
  | contractViolation (msg : String)
deriving DecidableEq

/-- `getLatestBlock`. -/
def getLatestBlock (st : BCState) : Option Block := st.chain.getLast?

/-- `getAllTransactions`: the transactions of all sealed blocks, in chain
order — pending transactions are not included. -/
def getAllTransactions (st : BCState) : List Transaction :=
  (st.chain.map fun b => b.transactions).flatten

/-- `getTransactionById`: first sealed transaction with the given id. -/
def getTransactionById (st : BCState) (txId : String) : Option Transaction :=
  (getAllTransactions st).find? fun tx => tx.id == txId

/-- `getTransactionsByBatchId`: sealed transactions whose `data.batchId` or id
matches. -/
def getTransactionsByBatchId (st : BCState) (batchId : String) :
    List Transaction :=
  (getAllTransactions st).filter fun tx =>
    tx.data.batchId == some batchId || tx.id == batchId

/-- The validation-and-construction phase of `createTransaction`: everything
the source does before the final `pendingTransactions.push`.  It reads the
state only through the node map and the sealed chain. -/
def createTransactionAux (env : Env) (now : Nat) (freshId : String)
    (st : BCState) (nodeId ty : String) (d : TxData) :
    Except SubmitError Transaction :=
  match mapGet st.nodes nodeId with
  | none => .error (.nodeNotFoundOrInactive nodeId)
  | some node =>
    if !node.active then .error (.nodeNotFoundOrInactive nodeId)
    else if !node.permissions.contains (getRequiredPermission ty) then
      .error (.noPermission nodeId ty)
    else
      let d' : TxData := { d with nodeId := some nodeId, nodeType := some node.type }
      let tx : Transaction :=
        { id := freshId, type := ty, data := d', nodeId := nodeId,
          timestamp := now,
          signature := env.signFn (freshId, ty, d', now, nodeId) }
      let contractResult : Except String ContractResult :=
        if ty = "CollectionEvent" then
          executeCollectionEvent env now tx (getAllTransactions st)
        else if ty = "ProcessingStep" then
          executeProcessingStep env tx (getAllTransactions st)
        else if ty = "QualityTest" then
          executeQualityTest env tx (getAllTransactions st)
        else .ok ⟨"SYSTEM_APPROVED", []⟩
      match contractResult with
      | .error msg =>
        .error (.contractViolation ("Smart contract validation failed: " ++ msg))
      | .ok res => .ok { tx with contractValidation := some res }

/-- `createTransaction`: on success the finished transaction is appended to
the pool; every failure throws before any mutation, so the state is returned
unchanged. -/
def createTransaction (env : Env) (now : Nat) (freshId : String) (st : BCState)
    (nodeId ty : String) (d : TxData) :
    Except SubmitError Transaction × BCState :=
  match createTransactionAux env now freshId st nodeId ty d with
  | .error e => (.error e, st)
  | .ok tx =>
    (.ok tx, { st with pendingTransactions := st.pendingTransactions ++ [tx] })

/-- The failure modes of `mineBlock`: an empty pool is the source's explicit
throw; an empty chain models the `TypeError` of `getLatestBlock().hash`; fuel
exhaustion models non-termination of the unbounded nonce search. -/
inductive SealError where
  | emptyPool
  | emptyChain
  | fuelExhausted
deriving DecidableEq

/-- The proof-of-work loop: starting from `nonce`, try successive nonces
(incrementing before hashing, as the source does — the first hash test sees
`undefined` and always fails) until the digest has `difficulty` leading
zeros. -/
def mineLoop (env : Env) (idxTs : Nat) (txs : List Transaction) (prev : String) :
    Nat → Nat → Option (String × Nat)
  | 0, _ => none
  | fuel + 1, nonce =>
    let n := nonce + 1
    let h := env.hashFn (idxTs, txs, prev, n)
    if leadingZeros h difficulty then some (h, n)
    else mineLoop env idxTs txs prev fuel n

/-- `mineBlock`: refuses an empty pool, otherwise drains the whole pool (in
order) into a new block linked to the latest block, runs the proof-of-work
search and appends the block. -/
def mineBlock (env : Env) (now : Nat) (minerId : String) (fuel : Nat)
    (st : BCState) : Except SealError Block × BCState :=
  if st.pendingTransactions.isEmpty then (.error .emptyPool, st)
  else
    match getLatestBlock st with
    | none => (.error .emptyChain, st)
    | some last =>
      match mineLoop env (st.chain.length + now) st.pendingTransactions
          last.hash fuel 0 with
      | none => (.error .fuelExhausted, st)
      | some (h, n) =>
        let blk : Block :=
          { index := st.chain.length, timestamp := now,
            transactions := st.pendingTransactions,
            previousHash := last.hash, hash := h, nonce := n,
            minerId := some minerId }
        (.ok blk, { st with chain := st.chain ++ [blk],
                            pendingTransactions := [] })

/-- `isChainValid`'s loop body, carrying the previous block: every later block
must have a stored digest equal to its recomputed digest and a `previousHash`
equal to the previous block's stored digest. -/
def chainCheck (env : Env) : Block → List Block → Bool
  | _, [] => true
  | prev, b :: rest =>
    (b.hash == calculateHash env b) && (b.previousHash == prev.hash) &&
      chainCheck env b rest

/-- `isChainValid`: scans the chain from index 1; the genesis block's own
digest is never rechecked. -/
def isChainValid (env : Env) (st : BCState) : Bool :=
  match st.chain with
  | [] => true
  | g :: rest => chainCheck env g rest

/-- Replaces the payload of block `i` and recomputes that block's stored
digest from its own (mutated) fields — the tampering scenario of the
chain-integrity property. -/
def tamperRecompute (env : Env) (c : List Block) (i : Nat)
    (txs : List Transaction) : List Block :=
  match c.get? i with
  | none => c
  | some b =>
    let b' : Block := { b with transactions := txs }
    c.set i { b' with hash := calculateHash env b' }

/-- The reachable states: an initial state followed by any interleaving of
registrations, submissions and seals, successful or failed (a failed operation
returns the state unchanged). -/
inductive Reachable (env : Env) : BCState → Prop
  | init (now : Nat) (gid : String) : Reachable env (initState env now gid)
  | register (now : Nat) (id ty pk : String) (md : List (String × String))
      {st : BCState} (h : Reachable env st) :
      Reachable env (registerNode now st id ty pk md).2
  | submit (now : Nat) (fid nodeId ty : String) (d : TxData) {st : BCState}
      (h : Reachable env st) :
      Reachable env (createTransaction env now fid st nodeId ty d).2
  | mine (now : Nat) (mid : String) (fuel : Nat) {st : BCState}
      (h : Reachable env st) :
      Reachable env (mineBlock env now mid fuel st).2

/-! ## Concrete environments and scenario states

The operations are parametric in the ambient runtime (`Env`).  For concrete
scenarios we fix a simple environment: a hash that prefixes two zero
characters (so the proof-of-work search succeeds at the first nonce) followed
by a rendering of the input, a calendar with 86400000-ms days and
30-day months (month 1 at small timestamps, which is in the ashwagandha
season), and constant placeholder digests for the two functions no claim
depends on. -/

/-- Renders the ids of a transaction list (enough of the JSON serialization to
separate the concrete payload mutations considered here). -/
def serTxIds (txs : List Transaction) : String :=
  String.join (txs.map fun t => t.id ++ ",")

/-- The scenario hash function: `"00"` followed by a rendering of the input. -/
def wHash (i : HashInput) : String :=
  "00" ++ toString i.1 ++ "|" ++ serTxIds i.2.1 ++ "|" ++ i.2.2.1 ++ "|"
    ++ toString i.2.2.2

/-- The scenario environment. -/
def wEnv : Env :=
  { hashFn := wHash
    signFn := fun _ => "SIG"
    contractHashFn := fun _ => "CH"
    dayOf := fun t => t / 86400000
    monthOf := fun t => t / 2592000000 % 12 + 1 }

/-- The SHA-256 hex digest of the string `"0[]0"` — the exact byte string the
source feeds to `crypto.createHash('sha256')` for the genesis digest
(`this.calculateHash([])`, every field defaulted).  SHA-256 itself is not
embedded; its value at this single relevant input is recorded here and can be
re-checked by hashing the four characters `0[]0`. -/
def realGenesisDigest : String :=
  "32369d15916932bd1ade51c0cae9f32f5ded2cccd29d81d7eec27066c813e39d"

/-- A hash function agreeing with real SHA-256 on the genesis input and with
the scenario hash elsewhere. -/
def cHash (i : HashInput) : String :=
  if i = genesisHashInput then realGenesisDigest else wHash i

/-- The scenario environment whose genesis digest is the real one. -/
def cEnv : Env := { wEnv with hashFn := cHash }

/-- Boolean success test of a submission result. -/
def submitOk (r : Except SubmitError Transaction) : Bool :=
  match r with
  | .ok _ => true
  | .error _ => false

/-- Boolean test for a `ContractViolation` failure. -/
def isContractViolation (r : Except SubmitError Transaction) : Bool :=
  match r with
  | .error (.contractViolation _) => true
  | _ => false

/-- A collection payload of the daily-ceiling scenario: farmer `F1`, species
ashwagandha, a GPS point inside the Rajasthan box, quantity `q` kg, no quality
metrics. -/
def farmerData (q : ℚ) : TxData :=
  { farmerId := some "F1", species := some "ashwagandha",
    gps := some ⟨25, 70⟩, quantity := some q }

/-- Initial state of the scenarios. -/
def s0 : BCState := initState wEnv 0 "G0"

/-- After registering farmer `F1`. -/
def s1 : BCState := (registerNode 1 s0 "F1" "farmer" "PK1" []).2

/-- After `F1` submits a 30 kg ashwagandha collection (still pooled). -/
def s30 : BCState :=
  (createTransaction wEnv 10 "T30" s1 "F1" "CollectionEvent" (farmerData 30)).2

/-- After the 30 kg collection has been sealed into a block. -/
def s30sealed : BCState := (mineBlock wEnv 20 "F1" 3 s30).2

/-- States of the tampering scenarios: a manufacturer sealing
`ManufacturingRecord` events (rule-free kind) into successive blocks. -/
def m1 : BCState := (registerNode 1 s0 "M1" "manufacturer" "PK" []).2

/-- One pooled manufacturing record. -/
def m2 : BCState :=
  (createTransaction wEnv 2 "TA" m1 "M1" "ManufacturingRecord" {}).2

/-- Two blocks: genesis plus one sealed block containing `TA`. -/
def m3 : BCState := (mineBlock wEnv 3 "M1" 3 m2).2

/-- A second pooled manufacturing record. -/
def m4 : BCState :=
  (createTransaction wEnv 4 "TB" m3 "M1" "ManufacturingRecord" {}).2

/-- Three blocks: genesis plus two sealed blocks. -/
def m5 : BCState := (mineBlock wEnv 5 "M1" 3 m4).2










/-- Boolean success test of a registration result. -/
def regOk (r : Except RegError RegReceipt) : Bool :=
  match r with
  | .ok _ => true
  | .error _ => false

/-- Projects the block out of a successful sealing result. -/
def okBlock (r : Except SealError Block) : Block :=
  match r with
  | .ok b => b
  | .error _ => default

/-- State with node `N1` registered as a farmer (re-registration scenario). -/
def n1 : BCState := (registerNode 1 s0 "N1" "farmer" "PK1" []).2

/-- Re-registration of `N1` with a different role. -/
def n2 : Except RegError RegReceipt × BCState :=
  registerNode 2 n1 "N1" "processor" "PK2" []

/-- Quality metrics whose only present metric is a withanolide content of
exactly `0` — strictly below the `0.3` minimum. -/
def zeroWithanolide : QualityMetrics := { withanolide := some 0 }

/-- A collection payload carrying `zeroWithanolide`. -/
def qdata : TxData :=
  { farmerId := some "F1", species := some "ashwagandha",
    gps := some ⟨25, 70⟩, quantity := some 5,
    qualityMetrics := some zeroWithanolide }

/-- The transaction pooled in `m2` (the manufacturing record `TA`). -/
def taTx : Transaction := m2.pendingTransactions.headD default

/-- The `previousHash` linkage invariant: every block's `previousHash` equals
the preceding block's stored digest. -/
def linkInv (c : List Block) : Prop :=
  List.Chain' (fun a b => b.previousHash = a.hash) c

/-- The invariant of mined (non-genesis) blocks: the stored digest is the
recomputed digest and it has `difficulty` leading zeros. -/
def minedInv (env : Env) (c : List Block) : Prop :=
  ∀ b ∈ c.tail, b.hash = calculateHash env b ∧ leadingZeros b.hash difficulty = true

/-! ## Helper lemmas -/

/-- The kernel-reducible `ratAdd` is ordinary rational addition. -/
theorem ratAdd_eq (a b : ℚ) : ratAdd a b = a + b := (Rat.add_def' a b).symm

/-- Registration never touches the chain. -/
theorem registerNode_chain (now : Nat) (st : BCState) (id ty pk : String)
    (md : List (String × String)) :
    ((registerNode now st id ty pk md).2).chain = st.chain := by
  unfold registerNode
  split <;> rfl

/-- Registration never touches the pool. -/
theorem registerNode_pending (now : Nat) (st : BCState) (id ty pk : String)
    (md : List (String × String)) :
    ((registerNode now st id ty pk md).2).pendingTransactions
      = st.pendingTransactions := by
  unfold registerNode
  split <;> rfl

/-- Submission never touches the chain. -/
theorem createTransaction_chain (env : Env) (now : Nat) (fid : String)
    (st : BCState) (nodeId ty : String) (d : TxData) :
    ((createTransaction env now fid st nodeId ty d).2).chain = st.chain := by
  unfold createTransaction
  cases createTransactionAux env now fid st nodeId ty d <;> rfl

/-- A failed submission leaves the state unchanged. -/
theorem createTransaction_err (env : Env) (now : Nat) (fid : String)
    (st : BCState) (nodeId ty : String) (d : TxData) (e : SubmitError)
    (st' : BCState)
    (h : createTransaction env now fid st nodeId ty d = (.error e, st')) :
    st' = st := by
  unfold createTransaction at h
  cases haux : createTransactionAux env now fid st nodeId ty d <;>
    rw [haux] at h <;> simp_all

/-- The admission verdict does not depend on the pool. -/
theorem createTransactionAux_pool (env : Env) (now : Nat) (fid : String)
    (st : BCState) (p : List Transaction) (nodeId ty : String) (d : TxData) :
    createTransactionAux env now fid { st with pendingTransactions := p }
        nodeId ty d
      = createTransactionAux env now fid st nodeId ty d := rfl

/-- What a successful run of the proof-of-work loop guarantees: the returned
digest is the hash at the returned nonce and it has the required leading
zeros. -/
theorem mineLoop_spec (env : Env) (idxTs : Nat) (txs : List Transaction)
    (prev : String) :
    ∀ (fuel nonce : Nat) (h : String) (n : Nat),
      mineLoop env idxTs txs prev fuel nonce = some (h, n) →
        h = env.hashFn (idxTs, txs, prev, n) ∧
          leadingZeros h difficulty = true := by
  intro fuel
  induction fuel with
  | zero => intro nonce h n hc; simp [mineLoop] at hc
  | succ f ih =>
    intro nonce h n hc
    rw [mineLoop] at hc
    by_cases hz :
        leadingZeros (env.hashFn (idxTs, txs, prev, nonce + 1)) difficulty
    · simp only [hz, if_true] at hc
      obtain ⟨rfl, rfl⟩ := Prod.mk.injEq .. ▸ Option.some.injEq .. ▸ hc
      exact ⟨rfl, hz⟩
    · simp only [hz, if_false, Bool.false_eq_true] at hc
      exact ih (nonce + 1) h n hc

/-- A failed sealing leaves the state unchanged. -/
theorem mineBlock_err (env : Env) (now : Nat) (mid : String) (fuel : Nat)
    (st : BCState) (e : SealError) (st' : BCState)
    (h : mineBlock env now mid fuel st = (.error e, st')) : st' = st := by
  unfold mineBlock at h
  split at h
  · simp_all
  · split at h
    · simp_all
    · split at h <;> simp_all

/-- What a successful sealing guarantees: the new block drains exactly the
pool in order, extends the chain at its end with correct index and linkage,
and carries a recomputed digest with the required leading zeros. -/
theorem mineBlock_spec (env : Env) (now : Nat) (mid : String) (fuel : Nat)
    (st : BCState) (blk : Block) (st' : BCState)
    (h : mineBlock env now mid fuel st = (.ok blk, st')) :
    blk.transactions = st.pendingTransactions ∧
    blk.index = st.chain.length ∧
    blk.timestamp = now ∧
    blk.minerId = some mid ∧
    (getLatestBlock st).map (fun b => b.hash) = some blk.previousHash ∧
    blk.hash = calculateHash env blk ∧
    leadingZeros blk.hash difficulty = true ∧
    st' = { st with chain := st.chain ++ [blk], pendingTransactions := [] } := by
  unfold mineBlock at h
  split at h
  · simp_all
  · split at h
    · simp_all
    · rename_i hne last hlast
      split at h
      · simp_all
      · rename_i hdig nn hloop
        obtain ⟨hh, hz⟩ :=
          mineLoop_spec env (st.chain.length + now) st.pendingTransactions
            last.hash fuel 0 hdig nn hloop
        simp only [Prod.mk.injEq, Except.ok.injEq] at h
        obtain ⟨hb, hs⟩ := h
        subst hb
        subst hs
        refine ⟨rfl, rfl, rfl, rfl, ?_, ?_, hz, rfl⟩
        · rw [hlast]; rfl
        · exact hh

/-- The structural chain invariant holds in every reachable state: the chain
is never empty, consecutive blocks are digest-linked, and every block after
genesis carries its own recomputed digest with the required leading zeros. -/
theorem reachable_chainInv (env : Env) (st : BCState) (h : Reachable env st) :
    st.chain ≠ [] ∧ linkInv st.chain ∧ minedInv env st.chain := by
  induction h with
  | init now gid =>
    refine ⟨by simp [initState], ?_, ?_⟩
    · exact List.chain'_singleton _
    · intro b hb; simp [initState] at hb
  | register now id ty pk md hst ih =>
    rwa [registerNode_chain]
  | submit now fid nodeId ty d hst ih =>
    rwa [createTransaction_chain]
  | mine now mid fuel hst ih =>
    rename_i st0
    rcases hmb : mineBlock env now mid fuel st0 with ⟨r, st2⟩
    cases r with
    | error e =>
      have : st2 = st0 := mineBlock_err env now mid fuel st0 e st2 hmb
      rw [this]; exact ih
    | ok blk =>
      obtain ⟨htx, hidx, hts, hmid, hprev, hhash, hzero, hst2⟩ :=
        mineBlock_spec env now mid fuel st0 blk st2 hmb
      subst hst2
      obtain ⟨hne, hlink, hmined⟩ := ih
      obtain ⟨hd, tl, hchain⟩ := List.exists_cons_of_ne_nil hne
      refine ⟨by simp, ?_, ?_⟩
      · refine List.Chain'.append hlink (List.chain'_singleton _) ?_
        intro x hx y hy
        simp only [List.head?_cons, Option.mem_def, Option.some.injEq] at hy
        subst hy
        rw [Option.mem_def] at hx
        simp only [getLatestBlock, hx, Option.map_some', Option.some.injEq]
          at hprev
        exact hprev.symm
      · intro b hb
        rw [hchain] at hb
        simp only [List.cons_append, List.tail_cons] at hb
        rcases List.mem_append.mp hb with hbl | hbr
        · exact hmined b (by rw [hchain]; exact hbl)
        · simp only [List.mem_singleton] at hbr
          subst hbr
          exact ⟨hhash, hzero⟩

/-- The validity scan accepts a suffix exactly when every scanned block has a
recomputed digest and correct linkage to its predecessor. -/
theorem chainCheck_iff (env : Env) :
    ∀ (l : List Block) (g : Block),
      chainCheck env g l = true ↔
        List.Chain'
          (fun a b => b.hash = calculateHash env b ∧ b.previousHash = a.hash)
          (g :: l) := by
  intro l
  induction l with
  | nil => intro g; simp [chainCheck]
  | cons b rest ih =>
    intro g
    rw [List.chain'_cons, ← ih b]
    simp [chainCheck, Bool.and_eq_true, beq_iff_eq, and_assoc]

/-- An element of a list at a positive index is in the tail. -/
theorem get_succ_mem_tail {α : Type} (l : List α) (i : Nat)
    (h : i + 1 < l.length) : l.get ⟨i + 1, h⟩ ∈ l.tail := by
  cases l with
  | nil => simp at h
  | cons a t => exact List.get_mem t i (Nat.lt_of_succ_lt_succ h)

/-- `isChainValid` in terms of the pairwise condition. -/
theorem isChainValid_true_iff (env : Env) (st : BCState) :
    isChainValid env st = true ↔
      List.Chain'
        (fun a b => b.hash = calculateHash env b ∧ b.previousHash = a.hash)
        st.chain := by
  unfold isChainValid
  cases hc : st.chain with
  | nil => simp
  | cons g rest => exact chainCheck_iff env rest g

/-- The chain invariant implies that the validity scan succeeds. -/
theorem isChainValid_of_inv (env : Env) (st : BCState)
    (hlink : linkInv st.chain) (hmined : minedInv env st.chain) :
    isChainValid env st = true := by
  rw [isChainValid_true_iff]
  rw [List.chain'_iff_get]
  intro i hi
  have hlink' := List.chain'_iff_get.mp hlink i hi
  refine ⟨?_, hlink'⟩
  exact (hmined _ (get_succ_mem_tail st.chain i (by omega))).1

/-- If a chain relation holds along a list, it holds between the elements at
any two consecutive positions. -/
theorem chain'_rel_getElem? {R : Block → Block → Prop} {l : List Block}
    (h : List.Chain' R l) (j : Nat) (x y : Block) (hx : l[j]? = some x)
    (hy : l[j + 1]? = some y) : R x y := by
  obtain ⟨hylt, hyg⟩ := List.getElem?_eq_some_iff.mp hy
  obtain ⟨hxlt, hxg⟩ := List.getElem?_eq_some_iff.mp hx
  have := List.chain'_iff_get.mp h j (by omega)
  simp only [List.get_eq_getElem] at this
  rw [hxg, hyg] at this
  exact this

/-- A list is a chain when the relation holds at every consecutive pair of
positions. -/
theorem chain'_of_getElem? {R : Block → Block → Prop} {l : List Block}
    (h : ∀ (j : Nat) (x y : Block), l[j]? = some x → l[j + 1]? = some y → R x y) :
    List.Chain' R l := by
  rw [List.chain'_iff_get]
  intro i hi
  refine h i _ _ ?_ ?_
  · simp only [List.get_eq_getElem]
    exact List.getElem?_eq_getElem (by omega)
  · simp only [List.get_eq_getElem]
    exact List.getElem?_eq_getElem (by omega)

/-- An element found at a positive position is in the tail. -/
theorem getElem?_succ_mem_tail {l : List Block} {j : Nat} {y : Block}
    (h : l[j + 1]? = some y) : y ∈ l.tail := by
  cases l with
  | nil => simp at h
  | cons a t =>
    simp only [List.getElem?_cons_succ] at h
    exact List.getElem?_mem h

/-- Tampering with the payload of any block that is not the last one and
recomputing its stored digest is caught by the validity scan, provided the
recomputed digest actually differs from the stored one (no hash collision). -/
theorem tamper_nonlast_invalid (env : Env) (st : BCState) (i : Nat)
    (txs : List Transaction) (b : Block) (hR : Reachable env st)
    (hib : st.chain.get? i = some b) (hlen : i + 1 < st.chain.length)
    (hne : calculateHash env { b with transactions := txs } ≠ b.hash) :
    isChainValid env { st with chain := tamperRecompute env st.chain i txs }
      = false := by
  obtain ⟨-, hlink, -⟩ := reachable_chainInv env st hR
  have hibe : st.chain[i]? = some b := by
    rw [← List.get?_eq_getElem?]; exact hib
  have hi : i < st.chain.length := by omega
  cases hv : isChainValid env
      { st with chain := tamperRecompute env st.chain i txs } with
  | false => rfl
  | true =>
    exfalso
    rw [isChainValid_true_iff] at hv
    simp only [tamperRecompute, hib] at hv
    obtain ⟨y, hy⟩ : ∃ y, st.chain[i + 1]? = some y :=
      ⟨_, List.getElem?_eq_getElem hlen⟩
    have hpair := chain'_rel_getElem? hv i _ y
      (List.getElem?_set_self (by simpa using hi))
      (by rw [List.getElem?_set_ne (by omega)]; exact hy)
    have horig := chain'_rel_getElem? hlink i b y hibe hy
    exact hne (hpair.2.symm.trans horig)

/-- Tampering with the payload of the last block and recomputing its stored
digest is not caught: the validity scan still accepts the chain. -/
theorem tamper_last_valid (env : Env) (st : BCState) (i : Nat)
    (txs : List Transaction) (b : Block) (hR : Reachable env st)
    (hib : st.chain.get? i = some b) (hlast : i + 1 = st.chain.length) :
    isChainValid env { st with chain := tamperRecompute env st.chain i txs }
      = true := by
  obtain ⟨-, hlink, hmined⟩ := reachable_chainInv env st hR
  have hibe : st.chain[i]? = some b := by
    rw [← List.get?_eq_getElem?]; exact hib
  have hi : i < st.chain.length := by omega
  rw [isChainValid_true_iff]
  simp only [tamperRecompute, hib]
  apply chain'_of_getElem?
  intro j x y hx hy
  have hjlen : j + 1 < st.chain.length := by
    have := (List.getElem?_eq_some_iff.mp hy).1
    simpa using this
  have hxo : st.chain[j]? = some x := by
    rw [← List.getElem?_set_ne (show i ≠ j by omega)
      (a := { { b with transactions := txs } with
              hash := calculateHash env { b with transactions := txs } })]
    exact hx
  by_cases hji : j + 1 = i
  · have hyb : (st.chain.set i
        { { b with transactions := txs } with
          hash := calculateHash env { b with transactions := txs } })[j + 1]?
        = some { { b with transactions := txs } with
                 hash := calculateHash env { b with transactions := txs } } := by
      rw [hji]
      exact List.getElem?_set_self (by simpa using hi)
    rw [hyb] at hy
    obtain rfl : _ = y := Option.some.inj hy
    refine ⟨rfl, ?_⟩
    have horig := chain'_rel_getElem? hlink j x b hxo (by rw [hji]; exact hibe)
    exact horig
  · have hyo : st.chain[j + 1]? = some y := by
      rw [← List.getElem?_set_ne (show i ≠ j + 1 by omega)
        (a := { { b with transactions := txs } with
                hash := calculateHash env { b with transactions := txs } })]
      exact hy
    have horig := chain'_rel_getElem? hlink j x y hxo hyo
    refine ⟨?_, horig⟩
    exact (hmined y (getElem?_succ_mem_tail hyo)).1

/-- After `Map.set`, looking the key up yields exactly the value just set. -/
theorem mapGet_mapSet_self (m : List (String × Node)) (k : String) (v : Node) :
    mapGet (mapSet m k v) k = some v := by
  unfold mapGet mapSet
  by_cases hany : m.any (fun p => p.1 == k) = true
  · rw [if_pos hany]
    induction m with
    | nil => simp at hany
    | cons p t ih =>
      by_cases hp : p.1 == k
      · simp only [List.map_cons, if_pos hp]
        rw [List.find?_cons_of_pos _ (by simp)]
        rfl
      · have ht : t.any (fun p => p.1 == k) = true := by
          simpa [List.any_cons, hp] using hany
        simp only [List.map_cons, if_neg hp]
        rw [List.find?_cons_of_neg _ (by simpa using hp)]
        exact ih ht
  · rw [if_neg hany]
    have hnone : m.find? (fun p => p.1 == k) = none := by
      rw [List.find?_eq_none]
      intro x hx hpx
      exact hany (List.any_eq_true.mpr ⟨x, hx, hpx⟩)
    rw [List.find?_append, hnone, Option.none_or,
      List.find?_cons_of_pos _ (by simp)]
    rfl

/-- A submission of a kind outside the three contract-checked kinds, by an
active node holding the required capability, always succeeds and appends the
finished transaction to the pool. -/
theorem submit_default_ok (env : Env) (now : Nat) (fid : String) (st : BCState)
    (nodeId ty : String) (d : TxData) (node : Node)
    (hn : mapGet st.nodes nodeId = some node) (ha : node.active = true)
    (hp : node.permissions.contains (getRequiredPermission ty) = true)
    (h1 : ty ≠ "CollectionEvent") (h2 : ty ≠ "ProcessingStep")
    (h3 : ty ≠ "QualityTest") :
    ∃ tx : Transaction,
      createTransaction env now fid st nodeId ty d =
        (.ok tx, { st with
          pendingTransactions := st.pendingTransactions ++ [tx] }) := by
  refine ⟨{ id := fid, type := ty,
            data := { d with nodeId := some nodeId, nodeType := some node.type },
            nodeId := nodeId, timestamp := now,
            signature := env.signFn (fid, ty,
              { d with nodeId := some nodeId, nodeType := some node.type },
              now, nodeId),
            contractValidation := some ⟨"SYSTEM_APPROVED", []⟩ }, ?_⟩
  have hp2 : getRequiredPermission ty ∈ node.permissions := by simpa using hp
  unfold createTransaction createTransactionAux
  simp [hn, ha, hp2, h1, h2, h3]

/-! ## Claim theorems -/

/-- C2 (counterexample): a chain produced by a sequence of seals in which the
last sealed block's event payload has been mutated and its stored digest
recomputed still passes `Validate()` — contradicting the claim that such a
mutation must make `Validate()` return false for every sealed block,
including the last one. -/
theorem c2_counterexample :
    Reachable wEnv m3 ∧
    m3.chain.length = 2 ∧
    (m3.chain.get? 1).map (fun b => b.transactions.isEmpty) = some false ∧
    tamperRecompute wEnv m3.chain 1 [] ≠ m3.chain ∧
    isChainValid wEnv { m3 with chain := tamperRecompute wEnv m3.chain 1 [] }
      = true :=
  ⟨Reachable.mine 3 "M1" 3 (Reachable.submit 2 "TA" "M1" "ManufacturingRecord"
      {} (Reachable.register 1 "M1" "manufacturer" "PK" []
        (Reachable.init 0 "G0"))),
    by decide, by decide, by decide, by decide⟩

/-- C2 (amended): every reachable chain passes `Validate()`; mutating the
payload of a block that is **not** the last one and recomputing its stored
digest makes `Validate()` return false, provided the recomputed digest differs
from the stored one; but mutating the **last** block's payload and recomputing
its stored digest leaves `Validate()` true. -/
theorem c2_amended :
    (∀ (env : Env) (st : BCState), Reachable env st →
      isChainValid env st = true) ∧
    (∀ (env : Env) (st : BCState) (i : Nat) (txs : List Transaction) (b : Block),
      Reachable env st → st.chain.get? i = some b → i + 1 < st.chain.length →
      calculateHash env { b with transactions := txs } ≠ b.hash →
      isChainValid env { st with chain := tamperRecompute env st.chain i txs }
        = false) ∧
    (∀ (env : Env) (st : BCState) (i : Nat) (txs : List Transaction) (b : Block),
      Reachable env st → st.chain.get? i = some b → i + 1 = st.chain.length →
      isChainValid env { st with chain := tamperRecompute env st.chain i txs }
        = true) := by
  refine ⟨?_, ?_, ?_⟩
  · intro env st h
    obtain ⟨-, hlink, hmined⟩ := reachable_chainInv env st h
    exact isChainValid_of_inv env st hlink hmined
  · intro env st i txs b hR hib hlen hne
    exact tamper_nonlast_invalid env st i txs b hR hib hlen hne
  · intro env st i txs b hR hib hlast
    exact tamper_last_valid env st i txs b hR hib hlast

/-- C2 (witness): the amended claim instantiated on a concrete three-block
chain: the untampered chain validates; tampering the middle block is caught;
tampering the last block is not. -/
theorem c2_witness :
    isChainValid wEnv m5 = true ∧
    isChainValid wEnv { m5 with chain := tamperRecompute wEnv m5.chain 1 [] }
      = false ∧
    isChainValid wEnv { m5 with chain := tamperRecompute wEnv m5.chain 2 [] }
      = true :=
  ⟨c2_amended.1 wEnv m5 (Reachable.mine 5 "M1" 3 (Reachable.submit 4 "TB" "M1"
      "ManufacturingRecord" {} (Reachable.mine 3 "M1" 3 (Reachable.submit 2
      "TA" "M1" "ManufacturingRecord" {} (Reachable.register 1 "M1"
      "manufacturer" "PK" [] (Reachable.init 0 "G0")))))),
   c2_amended.2.1 wEnv m5 1 [] (m5.chain.getD 1 default)
     (Reachable.mine 5 "M1" 3 (Reachable.submit 4 "TB" "M1"
       "ManufacturingRecord" {} (Reachable.mine 3 "M1" 3 (Reachable.submit 2
       "TA" "M1" "ManufacturingRecord" {} (Reachable.register 1 "M1"
       "manufacturer" "PK" [] (Reachable.init 0 "G0"))))))
     (by decide) (by decide) (by decide),
   c2_amended.2.2 wEnv m5 2 [] (m5.chain.getD 2 default)
     (Reachable.mine 5 "M1" 3 (Reachable.submit 4 "TB" "M1"
       "ManufacturingRecord" {} (Reachable.mine 3 "M1" 3 (Reachable.submit 2
       "TA" "M1" "ManufacturingRecord" {} (Reachable.register 1 "M1"
       "manufacturer" "PK" [] (Reachable.init 0 "G0"))))))
     (by decide) (by decide)⟩

/-- C3 (counterexample): in the freshly constructed state — reachable, with
the genesis digest being the real SHA-256 of the bytes the source hashes —
the single (genesis) block's stored digest does **not** have `difficulty`
leading zero characters, contradicting the claim for the genesis block. -/
theorem c3_counterexample :
    Reachable cEnv (initState cEnv 0 "G0") ∧
    ((initState cEnv 0 "G0").chain.map fun b => leadingZeros b.hash difficulty)
      = [false] :=
  ⟨Reachable.init 0 "G0", by decide⟩

/-- C3 (amended): in every reachable state the chain is non-empty, every
block's `previousHash` equals the preceding block's stored digest, and every
block **after genesis** has a stored digest with `difficulty` leading zero
characters; the genesis block's digest is exempt. -/
theorem c3_amended (env : Env) (st : BCState) (h : Reachable env st) :
    st.chain ≠ [] ∧
    List.Chain' (fun a b => b.previousHash = a.hash) st.chain ∧
    (∀ b ∈ st.chain.tail, leadingZeros b.hash difficulty = true) := by
  obtain ⟨hne, hlink, hmined⟩ := reachable_chainInv env st h
  exact ⟨hne, hlink, fun b hb => (hmined b hb).2⟩

/-- C3 (witness): the amended claim instantiated on a concrete three-block
reachable chain. -/
theorem c3_witness :
    m5.chain ≠ [] ∧
    List.Chain' (fun a b => b.previousHash = a.hash) m5.chain ∧
    (∀ b ∈ m5.chain.tail, leadingZeros b.hash difficulty = true) :=
  c3_amended wEnv m5 (Reachable.mine 5 "M1" 3 (Reachable.submit 4 "TB" "M1"
    "ManufacturingRecord" {} (Reachable.mine 3 "M1" 3 (Reachable.submit 2
    "TA" "M1" "ManufacturingRecord" {} (Reachable.register 1 "M1"
    "manufacturer" "PK" [] (Reachable.init 0 "G0"))))))

/-- C4: when `Seal` succeeds on a non-empty pool, the pool is drained to
empty, the new block's event sequence is exactly the previously pooled events
in order, the chain is extended only by that block (registry untouched), the
block's index is the prior chain length, and its `previousHash` is the prior
last block's digest. -/
theorem c4_seal_drains (env : Env) (now : Nat) (mid : String) (fuel : Nat)
    (st : BCState) (blk : Block) (st' : BCState)
    (hne : st.pendingTransactions ≠ [])
    (h : mineBlock env now mid fuel st = (.ok blk, st')) :
    st'.pendingTransactions = [] ∧
    blk.transactions = st.pendingTransactions ∧
    st'.chain = st.chain ++ [blk] ∧
    st'.nodes = st.nodes ∧
    blk.index = st.chain.length ∧
    (getLatestBlock st).map (fun b => b.hash) = some blk.previousHash := by
  obtain ⟨htx, hidx, -, -, hprev, -, -, hst⟩ :=
    mineBlock_spec env now mid fuel st blk st' h
  subst hst
  exact ⟨rfl, htx, rfl, rfl, hidx, hprev⟩

/-- C4 (witness): a concrete successful seal of the one-event pool of `m2`. -/
theorem c4_witness :
    m2.pendingTransactions ≠ [] ∧
    ((mineBlock wEnv 3 "M1" 3 m2).2.pendingTransactions = [] ∧
     (okBlock (mineBlock wEnv 3 "M1" 3 m2).1).transactions
       = m2.pendingTransactions ∧
     (mineBlock wEnv 3 "M1" 3 m2).2.chain
       = m2.chain ++ [okBlock (mineBlock wEnv 3 "M1" 3 m2).1] ∧
     (mineBlock wEnv 3 "M1" 3 m2).2.nodes = m2.nodes ∧
     (okBlock (mineBlock wEnv 3 "M1" 3 m2).1).index = m2.chain.length ∧
     (getLatestBlock m2).map (fun b => b.hash)
       = some (okBlock (mineBlock wEnv 3 "M1" 3 m2).1).previousHash) :=
  ⟨by decide,
   c4_seal_drains wEnv 3 "M1" 3 m2 (okBlock (mineBlock wEnv 3 "M1" 3 m2).1)
     (mineBlock wEnv 3 "M1" 3 m2).2 (by decide) rfl⟩

/-- C5 (counterexample): re-registering the existing id `N1` with a different
role does not fail — it succeeds and silently overwrites the stored node,
changing its role and capability set, contradicting the claimed
`DuplicateNode` rejection. -/
theorem c5_counterexample :
    (mapGet n1.nodes "N1").map (fun n => n.type) = some "farmer" ∧
    regOk n2.1 = true ∧
    (mapGet n2.2.nodes "N1").map (fun n => (n.type, n.active, n.permissions))
      = some ("processor", true,
          ["create_processing_step", "read_batch_data"]) :=
  ⟨by decide, by decide, by decide⟩

/-- C5 (amended): `registerNode` rejects only an invalid role; for any allowed
role it succeeds unconditionally — even when the id is already present — and
afterwards the registry maps the id to the freshly built node (silent
overwrite). -/
theorem c5_amended :
    (∀ (now : Nat) (st : BCState) (id ty pk : String)
        (md : List (String × String)),
      ty ∉ allowedTypes →
        registerNode now st id ty pk md = (.error (.invalidNodeType ty), st)) ∧
    (∀ (now : Nat) (st : BCState) (id ty pk : String)
        (md : List (String × String)),
      ty ∈ allowedTypes →
        (registerNode now st id ty pk md).1 = .ok ⟨id, now⟩ ∧
        mapGet ((registerNode now st id ty pk md).2).nodes id =
          some { id := id, type := ty, publicKey := pk, metadata := md,
                 registeredAt := now, active := true,
                 permissions := getNodePermissions ty }) := by
  constructor
  · intro now st id ty pk md hty
    unfold registerNode
    rw [if_pos hty]
  · intro now st id ty pk md hty
    unfold registerNode
    rw [if_neg (not_not_intro hty)]
    exact ⟨rfl, mapGet_mapSet_self st.nodes id _⟩

/-- C5 (witness): the amended claim instantiated on the concrete
re-registration of `N1` as a processor over its farmer registration. -/
theorem c5_witness :
    (registerNode 2 n1 "N1" "processor" "PK2" []).1 = .ok ⟨"N1", 2⟩ ∧
    mapGet ((registerNode 2 n1 "N1" "processor" "PK2" []).2).nodes "N1" =
      some { id := "N1", type := "processor", publicKey := "PK2",
             metadata := [], registeredAt := 2, active := true,
             permissions := getNodePermissions "processor" } :=
  c5_amended.2 2 n1 "N1" "processor" "PK2" [] (by decide)

/-- C6: failing operations are atomic.  A failed `Submit` returns the state
unchanged, and (when the generated id is fresh) the rejected event is not
retrievable by id afterwards; a failed `Seal` returns the state unchanged. -/
theorem c6_atomicity :
    (∀ (env : Env) (now : Nat) (fid : String) (st : BCState)
        (nodeId ty : String) (d : TxData) (e : SubmitError) (st' : BCState),
      createTransaction env now fid st nodeId ty d = (.error e, st') →
        st' = st ∧
        ((∀ tx ∈ getAllTransactions st, tx.id ≠ fid) →
          getTransactionById st' fid = none)) ∧
    (∀ (env : Env) (now : Nat) (mid : String) (fuel : Nat) (st : BCState)
        (e : SealError) (st' : BCState),
      mineBlock env now mid fuel st = (.error e, st') → st' = st) := by
  constructor
  · intro env now fid st nodeId ty d e st' h
    have hst := createTransaction_err env now fid st nodeId ty d e st' h
    subst hst
    refine ⟨rfl, fun hfresh => ?_⟩
    unfold getTransactionById
    rw [List.find?_eq_none]
    intro tx htx
    simp only [beq_iff_eq]
    exact hfresh tx htx
  · intro env now mid fuel st e st' h
    exact mineBlock_err env now mid fuel st e st' h

/-- C6 (witness): a concrete failed submission (unknown node) and a concrete
failed seal (empty pool), both leaving the initial state unchanged, with the
rejected id not retrievable. -/
theorem c6_witness :
    (s0 = s0 ∧ getTransactionById s0 "TX" = none) ∧ s0 = s0 :=
  ⟨(c6_atomicity.1 wEnv 5 "TX" s0 "NOBODY" "CollectionEvent" {}
      (.nodeNotFoundOrInactive "NOBODY") s0 rfl).imp id
      (fun f => f (by decide)),
   c6_atomicity.2 wEnv 5 "X" 3 s0 .emptyPool s0 rfl⟩

/-- C1 (counterexample): with a 30 kg ashwagandha collection still pooled
(not sealed) for farmer `F1` on day 0, a second 25 kg submission for the same
farmer, species and day **succeeds** — although 30 + 25 exceeds the 50 kg/day
ceiling — because rule evaluation sees only sealed events; the claim demanded
a `ContractViolation` rejection. -/
theorem c1_counterexample :
    submitOk (createTransaction wEnv 10 "T30" s1 "F1" "CollectionEvent"
        (farmerData 30)).1 = true ∧
    (s30.pendingTransactions.map fun tx =>
        (tx.type, tx.data.farmerId, tx.data.species, tx.data.quantity,
          wEnv.dayOf tx.timestamp))
      = [("CollectionEvent", some "F1", some "ashwagandha", some (30 : ℚ), 0)] ∧
    dailyLimits "ashwagandha" = some 50 ∧
    wEnv.dayOf 15 = 0 ∧
    ¬ ratAdd 30 25 ≤ (50 : ℚ) ∧
    submitOk (createTransaction wEnv 15 "T25" s30 "F1" "CollectionEvent"
        (farmerData 25)).1 = true :=
  ⟨by decide, by decide, by decide, by decide, by decide, by decide⟩

/-- C1 (amended): the admission verdict never depends on the pool, and for a
well-formed collection submission (active farmer with the capability, known
species in zone and season, no quality metrics) it succeeds exactly when the
daily-ceiling check over the **sealed** history passes — pooled same-day
events are not counted; once the earlier event is sealed, the ceiling applies
to it. -/
theorem c1_amended :
    (∀ (env : Env) (now : Nat) (fid : String) (st : BCState)
        (p : List Transaction) (nodeId ty : String) (d : TxData),
      (createTransaction env now fid { st with pendingTransactions := p }
          nodeId ty d).1
        = (createTransaction env now fid st nodeId ty d).1) ∧
    (∀ (env : Env) (now : Nat) (fid : String) (st : BCState) (nodeId : String)
        (d : TxData) (node : Node),
      mapGet st.nodes nodeId = some node → node.active = true →
      node.permissions.contains "create_collection_event" = true →
      validateGeoFencing d.species d.gps = some true →
      validateSeason env d.species now = true →
      d.qualityMetrics = none →
      submitOk (createTransaction env now fid st nodeId "CollectionEvent" d).1
        = validateDailyLimit env now d.farmerId d.species d.quantity
            (getAllTransactions st)) := by
  constructor
  · intro env now fid st p nodeId ty d
    unfold createTransaction
    rw [createTransactionAux_pool]
    cases createTransactionAux env now fid st nodeId ty d <;> rfl
  · intro env now fid st nodeId d node hn ha hperm hgeo hseason hq
    have hp2 : "create_collection_event" ∈ node.permissions := by
      simpa using hperm
    cases hdl : validateDailyLimit env now d.farmerId d.species d.quantity
        (getAllTransactions st) <;>
      (unfold createTransaction createTransactionAux executeCollectionEvent
       simp [hn, ha, hp2, getRequiredPermission, hgeo, hseason, hq, hdl,
         submitOk])

/-- C1 (witness): the amended claim instantiated after sealing the 30 kg
event: a 25 kg same-day submission now fails the sealed-history ceiling
check, so it is rejected. -/
theorem c1_witness :
    submitOk (createTransaction wEnv 25 "T25" s30sealed "F1" "CollectionEvent"
        (farmerData 25)).1
      = validateDailyLimit wEnv 25 (some "F1") (some "ashwagandha") (some 25)
          (getAllTransactions s30sealed) ∧
    validateDailyLimit wEnv 25 (some "F1") (some "ashwagandha") (some 25)
        (getAllTransactions s30sealed) = false :=
  ⟨c1_amended.2 wEnv 25 "T25" s30sealed "F1" (farmerData 25)
      ((mapGet s30sealed.nodes "F1").getD default) (by decide) (by decide)
      (by decide) (by decide) (by decide) (by decide),
   by decide⟩

/-- A chained guard yields `none` exactly when its condition fails and the
rest yields `none`. -/
theorem ite_none_iff_chain (c : Prop) [Decidable c] (s : String)
    (rest : Option String) :
    (if c then some s else rest) = none ↔ ¬c ∧ rest = none := by
  split_ifs with h <;> simp [h]

/-- C7 (counterexample): a present withanolide content of exactly `0` —
strictly below the `0.3` minimum of the ashwagandha threshold table — passes
the quality rule (the JS truthiness guard treats `0` like an absent value),
and a full submission carrying it succeeds; the claim demanded failure for any
present metric outside its bound. -/
theorem c7_counterexample :
    qualityThresholds "ashwagandha"
      = some ⟨12, mkRat 3 10, mkRat 1 100, 10⟩ ∧
    (0 : ℚ) < mkRat 3 10 ∧
    zeroWithanolide.withanolide = some 0 ∧
    validateQuality (some "ashwagandha") zeroWithanolide = none ∧
    submitOk (createTransaction wEnv 10 "TQ" s1 "F1" "CollectionEvent"
        qdata).1 = true :=
  ⟨by decide, by decide, by decide, by decide, by decide⟩

/-- C7 (amended): a species without a threshold table fails with the specific
reason; for ashwagandha the rule passes exactly when every present metric is
within bounds **except** that a present withanolide value of exactly `0` is
skipped (truthiness guard) — so failure requires a nonzero value below the
minimum; and an out-of-bound moisture always yields its specific reason. -/
theorem c7_amended :
    (∀ (s : Option String) (qm : QualityMetrics),
      s.bind qualityThresholds = none →
        validateQuality s qm = some "No quality rules defined for species") ∧
    (∀ qm : QualityMetrics,
      validateQuality (some "ashwagandha") qm = none ↔
        ((∀ m, qm.moisture = some m → m ≤ 12) ∧
         (∀ w, qm.withanolide = some w → w = 0 ∨ mkRat 3 10 ≤ w) ∧
         (∀ p, qm.pesticide = some p → p ≤ mkRat 1 100) ∧
         (∀ hv, qm.heavyMetals = some hv → hv ≤ 10))) ∧
    (∀ (qm : QualityMetrics) (m : ℚ), qm.moisture = some m → 12 < m →
      validateQuality (some "ashwagandha") qm
        = some "Moisture content exceeds maximum allowed") := by
  refine ⟨?_, ?_, ?_⟩
  · intro s qm h
    unfold validateQuality
    rw [h]
  · intro qm
    obtain ⟨mo, wi, pe, hv⟩ := qm
    unfold validateQuality
    simp only [Option.some_bind, qualityThresholds, if_true]
    rw [ite_none_iff_chain, ite_none_iff_chain, ite_none_iff_chain,
      ite_none_iff_chain]
    simp only [and_true]
    refine and_congr ?_ (and_congr ?_ (and_congr ?_ ?_))
    · cases mo <;> simp [not_lt]
    · cases wi <;>
        simp [not_lt, not_and_or, Bool.and_eq_true, Bool.not_eq_true',
          beq_eq_false_iff_ne] <;>
        tauto
    · cases pe <;> simp [not_lt]
    · cases hv <;> simp [not_lt]
  · intro qm m hm h12
    unfold validateQuality
    simp only [Option.some_bind, qualityThresholds, if_true, hm,
      Option.map_some', Option.getD_some, decide_eq_true_eq, h12]

/-- C7 (witness): the amended claim instantiated concretely: an unknown
species fails; in-bound metrics pass; out-of-bound moisture fails with its
reason. -/
theorem c7_witness :
    validateQuality (some "tulsi") {}
      = some "No quality rules defined for species" ∧
    validateQuality (some "ashwagandha")
      { moisture := some 11, withanolide := some 1, pesticide := some 0,
        heavyMetals := some 9 } = none ∧
    validateQuality (some "ashwagandha") { moisture := some 13 }
      = some "Moisture content exceeds maximum allowed" :=
  ⟨c7_amended.1 (some "tulsi") {} (by decide),
   (c7_amended.2.1 _).mpr
     ⟨by intro m hm; rw [← Option.some.inj hm]; decide,
      by intro w hw; rw [← Option.some.inj hw]; right; decide,
      by intro p hp; rw [← Option.some.inj hp]; decide,
      by intro hv hh; rw [← Option.some.inj hh]; decide⟩,
   c7_amended.2.2 { moisture := some 13 } 13 rfl (by decide)⟩

/-- C8: for any event kind outside the three contract-checked kinds (in
particular `ManufacturingRecord` and `ComplianceReport`), a submission by an
active node holding the required capability passes the contract
unconditionally and appends the event to the pool. -/
theorem c8_default_allow (env : Env) (now : Nat) (fid : String) (st : BCState)
    (nodeId ty : String) (d : TxData) (node : Node)
    (hn : mapGet st.nodes nodeId = some node) (ha : node.active = true)
    (hp : node.permissions.contains (getRequiredPermission ty) = true)
    (h1 : ty ≠ "CollectionEvent") (h2 : ty ≠ "ProcessingStep")
    (h3 : ty ≠ "QualityTest") :
    ∃ tx : Transaction,
      createTransaction env now fid st nodeId ty d =
        (.ok tx,
          { st with pendingTransactions := st.pendingTransactions ++ [tx] }) :=
  submit_default_ok env now fid st nodeId ty d node hn ha hp h1 h2 h3

/-- C8 (witness): a concrete `ManufacturingRecord` submission by the active
manufacturer `M1` succeeds and is appended to the pool. -/
theorem c8_witness :
    ∃ tx : Transaction,
      createTransaction wEnv 2 "TA" m1 "M1" "ManufacturingRecord" {} =
        (.ok tx,
          { m1 with pendingTransactions := m1.pendingTransactions ++ [tx] }) :=
  c8_default_allow wEnv 2 "TA" m1 "M1" "ManufacturingRecord" {}
    ((mapGet m1.nodes "M1").getD default) (by decide) (by decide) (by decide)
    (by decide) (by decide) (by decide)

/-- C9: the kind-to-capability lookup falls back to `read_own_data` for any
kind outside the five enumerated ones; the farmer role holds that capability;
hence an active farmer node submitting an arbitrary unrecognized kind passes
the capability check and the event is admitted via the default-allow contract
path. -/
theorem c9_unrecognized_kind :
    (∀ ty : String,
      ty ∉ ["CollectionEvent", "ProcessingStep", "QualityTest",
            "ManufacturingRecord", "ComplianceReport"] →
        getRequiredPermission ty = "read_own_data") ∧
    "read_own_data" ∈ getNodePermissions "farmer" ∧
    (∀ (env : Env) (now : Nat) (fid : String) (st : BCState)
        (nodeId ty : String) (d : TxData) (node : Node),
      mapGet st.nodes nodeId = some node → node.active = true →
      node.permissions = getNodePermissions "farmer" →
      ty ∉ ["CollectionEvent", "ProcessingStep", "QualityTest",
            "ManufacturingRecord", "ComplianceReport"] →
      ∃ tx : Transaction,
        createTransaction env now fid st nodeId ty d =
          (.ok tx,
            { st with
              pendingTransactions := st.pendingTransactions ++ [tx] })) := by
  refine ⟨?_, by decide, ?_⟩
  · intro ty hty
    simp only [List.mem_cons, not_or, List.not_mem_nil] at hty
    obtain ⟨k1, k2, k3, k4, k5, -⟩ := hty
    unfold getRequiredPermission
    rw [if_neg k1, if_neg k2, if_neg k3, if_neg k4, if_neg k5]
  · intro env now fid st nodeId ty d node hn ha hperm hty
    simp only [List.mem_cons, not_or, List.not_mem_nil] at hty
    obtain ⟨k1, k2, k3, k4, k5, -⟩ := hty
    refine submit_default_ok env now fid st nodeId ty d node hn ha ?_ k1 k2 k3
    have hreq : getRequiredPermission ty = "read_own_data" := by
      unfold getRequiredPermission
      rw [if_neg k1, if_neg k2, if_neg k3, if_neg k4, if_neg k5]
    rw [hperm, hreq]
    decide

/-- C9 (witness): the active farmer `F1` submits an event of the unrecognized
kind `SomeUnknownKind`; the fallback capability check passes and the event is
pooled. -/
theorem c9_witness :
    getRequiredPermission "SomeUnknownKind" = "read_own_data" ∧
    "read_own_data" ∈ getNodePermissions "farmer" ∧
    (∃ tx : Transaction,
      createTransaction wEnv 7 "TU" s1 "F1" "SomeUnknownKind" {} =
        (.ok tx,
          { s1 with
            pendingTransactions := s1.pendingTransactions ++ [tx] })) :=
  ⟨c9_unrecognized_kind.1 "SomeUnknownKind" (by decide),
   c9_unrecognized_kind.2.1,
   c9_unrecognized_kind.2.2 wEnv 7 "TU" s1 "F1" "SomeUnknownKind" {}
     ((mapGet s1.nodes "F1").getD default) (by decide) (by decide) (by decide)
     (by decide)⟩

/-- C10: a pooled (admitted but unsealed) event whose id does not collide
with any sealed one is returned neither by `getTransactionById` nor by
`getTransactionsByBatchId` (both scan only sealed blocks); after a successful
seal every previously pooled event becomes retrievable by id. -/
theorem c10_pool_not_readable :
    (∀ (st : BCState) (tx : Transaction) (b : String),
      tx ∈ st.pendingTransactions →
      (∀ t ∈ getAllTransactions st, t.id ≠ tx.id) →
      getTransactionById st tx.id = none ∧
      tx ∉ getTransactionsByBatchId st b) ∧
    (∀ (env : Env) (now : Nat) (mid : String) (fuel : Nat) (st : BCState)
        (blk : Block) (st' : BCState) (tx : Transaction),
      mineBlock env now mid fuel st = (.ok blk, st') →
      tx ∈ st.pendingTransactions →
      (getTransactionById st' tx.id).isSome = true) := by
  constructor
  · intro st tx b htx hfresh
    constructor
    · unfold getTransactionById
      rw [List.find?_eq_none]
      intro t ht
      simp only [beq_iff_eq]
      exact hfresh t ht
    · intro hmem
      have hall : tx ∈ getAllTransactions st := List.mem_of_mem_filter hmem
      exact hfresh tx hall rfl
  · intro env now mid fuel st blk st' tx h htx
    obtain ⟨htxs, -, -, -, -, -, -, hst⟩ :=
      mineBlock_spec env now mid fuel st blk st' h
    subst hst
    unfold getTransactionById
    simp only [List.find?_isSome]
    refine ⟨tx, ?_, by simp⟩
    unfold getAllTransactions
    simp only [List.map_append, List.flatten_append]
    apply List.mem_append_right
    simp [htxs, htx]

/-- C10 (witness): the pooled manufacturing record of `m2` is invisible to
both read operations before sealing and retrievable by id after the seal. -/
theorem c10_witness :
    (getTransactionById m2 taTx.id = none ∧
     taTx ∉ getTransactionsByBatchId m2 "B1") ∧
    (getTransactionById (mineBlock wEnv 3 "M1" 3 m2).2 taTx.id).isSome
      = true :=
  ⟨c10_pool_not_readable.1 m2 taTx "B1" (by decide) (by decide),
   c10_pool_not_readable.2 wEnv 3 "M1" 3 m2
     (okBlock (mineBlock wEnv 3 "M1" 3 m2).1) (mineBlock wEnv 3 "M1" 3 m2).2
     taTx rfl (by decide)⟩

end HerbLedger
